import Mathlib

/-!
Verification of the chat-group automation bot (`src/main.py`) against its
natural-language specification.

The development is a shallow embedding: the relevant Python functions are
translated into executable Lean definitions.  Python strings are modelled as
`List Char` (`Str`), timestamps as `Int` (seconds), calendar dates as a
`Date` structure with Gregorian arithmetic, and the Postgres tables as Lean
lists with insert-or-ignore semantics matching the `ON CONFLICT DO NOTHING`
statements.  The `random` module is modelled by passing the drawn values
explicitly.
-/

/-- Python strings are modelled as lists of unicode characters. -/
abbrev Str := List Char

/-- Python `str.strip()`: drop leading and trailing whitespace. -/
def pyStrip (s : Str) : Str :=
  ((s.dropWhile Char.isWhitespace).reverse.dropWhile Char.isWhitespace).reverse

/-- Python `str.isdigit()` (restricted to ASCII digits, which are the only
digit characters the program produces): true iff the string is non-empty and
every character is a digit. -/
def pyIsDigit (s : Str) : Bool :=
  !s.isEmpty && s.all Char.isDigit

/-! ## CycleClock (`current_cycle_id`, src/main.py lines 92-98)

`current_cycle_id` converts `now` to the Europe/Amsterdam local timezone and
compares the local time-of-day with `RESET_AT = time(5, 0)`.  Two embeddings
are used, both translated from the same lines:

* `current_cycle_id` works on a local calendar datetime (`Date` plus
  seconds-of-day), with real Gregorian previous-day arithmetic, for the
  calendar-level claims;
* `cycle_day_of_ts` works on absolute `Int` timestamps, parameterised by the
  timezone's UTC-offset function; `amsOffset` is Europe/Amsterdam's
  daylight-saving-observing offset (CET +1h / CEST +2h, with the 2024
  transition instants of the tz database), representing the cycle identifier
  as an epoch-day number of the local calendar, for the monotonicity claim. -/

/-- A Gregorian calendar date. -/
structure Date where
  year : Int
  month : Nat
  day : Nat
  deriving DecidableEq, Repr

/-- Gregorian leap-year rule. -/
def isLeap (y : Int) : Bool :=
  y % 4 == 0 && (y % 100 != 0 || y % 400 == 0)

/-- Number of days in a month of a given year. -/
def daysInMonth (y : Int) (m : Nat) : Nat :=
  if m = 2 then (if isLeap y then 29 else 28)
  else if m = 4 ∨ m = 6 ∨ m = 9 ∨ m = 11 then 30
  else 31

/-- The previous calendar date (`local.date() - timedelta(days=1)`). -/
def prevDate : Date → Date
  | ⟨y, m, d⟩ =>
    if 1 < d then ⟨y, m, d - 1⟩
    else if 1 < m then ⟨y, m - 1, daysInMonth y (m - 1)⟩
    else ⟨y - 1, 12, 31⟩

/-- A local (timezone-adjusted) datetime: calendar date plus seconds of day. -/
structure LocalDT where
  date : Date
  tod : Nat
  deriving DecidableEq, Repr

/-- `RESET_AT = time(5, 0)` as seconds of day. -/
def RESET_AT_S : Nat := 5 * 3600

/-- `current_cycle_id` (src/main.py lines 92-98) on the local datetime: if the
local time-of-day is before the 05:00 boundary the cycle identifier is the
previous calendar date, otherwise today's date.  (The Python function returns
the ISO format of this date; the embedding returns the date itself.) -/
def current_cycle_id (lt : LocalDT) : Date :=
  if lt.tod < RESET_AT_S then prevDate lt.date else lt.date

/-- 2024-03-31 01:00:00 UTC: the instant Europe/Amsterdam switches from CET
to CEST (spring forward, 02:00 → 03:00 local). -/
def DST_START_2024 : Int := 1711846800

/-- 2024-10-27 01:00:00 UTC: the instant Europe/Amsterdam switches from CEST
back to CET (fall back, 03:00 → 02:00 local). -/
def DST_END_2024 : Int := 1729990800

/-- The UTC offset (seconds) of `ZoneInfo("Europe/Amsterdam")` (src/main.py
line 27) as a function of the absolute timestamp: +1h (CET) outside the
daylight-saving window and +2h (CEST) inside it, with the 2024 transition
instants of the tz database (the EU rule: last Sunday of March 01:00 UTC to
last Sunday of October 01:00 UTC).  Timestamps outside 2024 keep the standard
offset; all concrete instants used below lie within 2024. -/
def amsOffset (t : Int) : Int :=
  if t < DST_START_2024 then 3600
  else if t < DST_END_2024 then 7200
  else 3600

/-- Local time-of-day (seconds in `[0, 86400)`) of an absolute timestamp under
the offset function `off`. -/
def localTod (off : Int → Int) (t : Int) : Int := (t + off t) % 86400

/-- `current_cycle_id` at the timestamp level, for the timezone described by
the offset function `off`: the cycle identifier as an epoch-day number of the
local calendar, one less when the local time-of-day is before the boundary
(same branch structure as src/main.py lines 94-97). -/
def cycle_day_of_ts (off : Int → Int) (t : Int) : Int :=
  let localSec := t + off t
  if localSec % 86400 < (RESET_AT_S : Int) then localSec / 86400 - 1
  else localSec / 86400

/-! ## NameRegistry: `db_mark_used` (src/main.py lines 175-187)

The `used_names` table has `PRIMARY KEY (cycle_id, name)` and `db_mark_used`
issues `INSERT ... ON CONFLICT DO NOTHING`, so a row is added only when no row
with the same key exists.  The table is a list of (cycle identifier, name)
pairs; the cycle identifier is the ISO string computed by `current_cycle_id`,
kept abstract as a `Str` here.  The claim quantifies over calls within a single
cycle, so the cycle identifier is passed explicitly (in the code it is
recomputed from `datetime.now(TZ)` on every call and is equal for all calls
inside one cycle). -/

/-- A `used_names` row: (cycle_id, name). -/
abbrev UsedRow := Str × Str

/-- `db_mark_used` on the success path: insert-or-ignore of `(cid, name)` into
the `used_names` table (src/main.py line 181, `ON CONFLICT DO NOTHING`). -/
def db_mark_used (store : List UsedRow) (cid name : Str) : List UsedRow :=
  if store.any (fun r => r.1 = cid ∧ r.2 = name) then store
  else store ++ [(cid, name)]

/-- Iterate `db_mark_used` for the same (cycle, name) key `m` times. -/
def db_mark_used_iter (store : List UsedRow) (cid name : Str) : Nat → List UsedRow
  | 0 => store
  | m + 1 => db_mark_used_iter (db_mark_used store cid name) cid name m

/-- Number of rows in the store matching the key `(cid, name)`. -/
def usedCount (store : List UsedRow) (cid name : Str) : Nat :=
  store.countP (fun r => r.1 = cid ∧ r.2 = name)

/-! ## NameRegistry: `db_remember_joined_name` (src/main.py lines 145-164)

The function strips the name, returns early if it is empty, then tries the
durable `INSERT ... ON CONFLICT (name) DO NOTHING` up to 3 times (breaking out
of the loop on success), and finally — after the retry loop, on every path —
appends the name to the in-memory `JOINED_NAMES` list if it is not already
present.  The outcome of each durable attempt is passed as a list of booleans
(`true` = the insert statement succeeded, `false` = it raised). -/

/-- Joint state of the `joined_names` table and the in-memory list. -/
structure RegistryState where
  store : List Str
  memory : List Str
  deriving DecidableEq, Repr

/-- The bounded retry loop of `db_remember_joined_name` (src/main.py lines
151-161): up to `fuel` attempts, consuming one outcome per attempt; a
successful attempt performs the insert-or-ignore and breaks. -/
def tryInsertName (fuel : Nat) (oks : List Bool) (store : List Str) (name : Str) :
    List Str :=
  match fuel, oks with
  | 0, _ => store
  | _ + 1, [] => store
  | fuel + 1, ok :: rest =>
    if ok then (if name ∈ store then store else store ++ [name])
    else tryInsertName fuel rest store name

/-- `db_remember_joined_name` (src/main.py lines 145-164): strip, early return
on empty, bounded durable retries, then the unconditional in-memory append. -/
def db_remember_joined_name (st : RegistryState) (rawName : Str) (oks : List Bool) :
    RegistryState :=
  let name := pyStrip rawName
  if name = [] then st
  else
    let store' := tryInsertName 3 oks st.store name
    let memory' := if name ∈ st.memory then st.memory else st.memory ++ [name]
    ⟨store', memory'⟩

/-! ## MessageLifecycleTracker: `db_track_bot_verify_message_id`
(src/main.py lines 189-229)

State is the global `BOT_MSG_PRUNE_COUNTER` plus the `bot_verify_messages`
table, a list of (message_id, created_at) rows with `message_id` as primary
key and `created_at` defaulting to `NOW()`.  On each (successful) call the row
is inserted with `ON CONFLICT DO NOTHING`, the counter is incremented, and
when the counter is a multiple of `BOT_MSG_PRUNE_EVERY` the retention prune
runs: delete rows with `created_at < NOW() - INTERVAL '2 days'`, then delete
every row beyond the newest `BOT_MSG_MAX_ROWS` rows ordered by `created_at`
descending.  Timestamps are `Int` seconds. -/

def BOT_MSG_RETENTION_DAYS : Nat := 2

def BOT_MSG_MAX_ROWS : Nat := 20000

def BOT_MSG_PRUNE_EVERY : Nat := 200

/-- The retention window in seconds. -/
def RETENTION_S : Int := BOT_MSG_RETENTION_DAYS * 86400

/-- A `bot_verify_messages` row: (message_id, created_at). -/
abbrev MsgRow := Int × Int

/-- Insert into a descending-by-`created_at` sorted list (models the
`ORDER BY created_at DESC` of the cap query). -/
def insertDescByTime (r : MsgRow) : List MsgRow → List MsgRow
  | [] => [r]
  | x :: xs => if x.2 ≤ r.2 then r :: x :: xs else x :: insertDescByTime r xs

/-- Sort rows by `created_at` descending. -/
def sortDescByTime (l : List MsgRow) : List MsgRow :=
  l.foldr insertDescByTime []

/-- Tracker state: the prune counter and the table. -/
structure TrackState where
  counter : Nat
  store : List MsgRow
  deriving DecidableEq, Repr

/-- `db_track_bot_verify_message_id` (src/main.py lines 189-229) on the
success path, at time `now`: insert-or-ignore the id (fresh row gets
`created_at = now`, the store default), bump the counter, and when the counter
is a multiple of `BOT_MSG_PRUNE_EVERY` run the two prune deletes. -/
def db_track_bot_verify_message_id (st : TrackState) (mid : Int) (now : Int) :
    TrackState :=
  let store1 :=
    if st.store.any (fun r => r.1 = mid) then st.store else st.store ++ [(mid, now)]
  let c := st.counter + 1
  if c % BOT_MSG_PRUNE_EVERY ≠ 0 then ⟨c, store1⟩
  else
    let store2 := store1.filter (fun r => ¬ r.2 < now - RETENTION_S)
    let store3 := (sortDescByTime store2).take BOT_MSG_MAX_ROWS
    ⟨c, store3⟩

/-- Run `db_track_bot_verify_message_id` over a list of (message_id, now)
calls. -/
def trackAll (st : TrackState) (calls : List (Int × Int)) : TrackState :=
  calls.foldl (fun s c => db_track_bot_verify_message_id s c.1 c.2) st

/-! ## Cleanup sweep: body of `cleanup_verify_topic_loop`
(src/main.py lines 318-351)

One sweep fetches all `message_id`s from `bot_verify_messages`, attempts to
delete each through the transport (the wrapped `delete_message` either
succeeds or raises a fatal error), appends failures to `kept`, then rewrites
the table: `TRUNCATE` followed by `INSERT ... ON CONFLICT DO NOTHING` of the
kept ids — without a `created_at` value, so each re-inserted row receives the
store default `NOW()`, i.e. the sweep time.  `deleteOk mid = true` models a
successful delete, `false` a delete that raised. -/

/-- One sweep of `cleanup_verify_topic_loop` at time `now`: returns the table
contents after the rewrite. -/
def cleanup_sweep (store : List MsgRow) (deleteOk : Int → Bool) (now : Int) :
    List MsgRow :=
  let ids := store.map (fun r => r.1)
  let kept := ids.foldl (fun acc mid => if deleteOk mid then acc else acc ++ [mid]) []
  kept.foldl
    (fun st mid => if st.any (fun r => r.1 = mid) then st else st ++ [(mid, now)]) []

/-! ## RateLimitedSender: `safe_send` (src/main.py lines 232-254)

`safe_send` loops forever around the transport call: on `RetryAfter e` it
sleeps `e.retry_after + 1` seconds and retries the same call; on
`TimedOut`/`NetworkError` it sleeps 3 seconds and retries; on `Forbidden` or
`BadRequest` it re-raises; on any other exception it sleeps 2 seconds and
retries.  It consults no state shared between calls.  The transport's
behaviour is modelled as the list of outcomes it would produce for the
successive attempts of one call; the run returns the call's result together
with the number of transport attempts made and the total seconds slept before
returning (`none` when the outcome list is exhausted, i.e. the scripted
behaviour does not determine a terminal outcome). -/

/-- One transport outcome for a single attempt. -/
inductive TgOutcome where
  | ok (msgId : Int)
  | retryAfter (n : Nat)
  | transient
  | forbidden
  | badRequest
  | other
  deriving DecidableEq, Repr

/-- A fatal error re-raised by `safe_send`. -/
inductive TgFatal where
  | forbidden
  | badRequest
  deriving DecidableEq, Repr

/-- Result of one `safe_send` call: the value returned or the fatal error
raised, the number of transport attempts made, and the seconds slept. -/
structure SendRun where
  result : Except TgFatal Int
  attempts : Nat
  slept : Nat
  deriving Repr

/-- `safe_send` (src/main.py lines 232-254) run against a scripted list of
transport outcomes, one outcome per attempt. -/
def safe_send : List TgOutcome → Option SendRun
  | [] => none
  | o :: rest =>
    match o with
    | .ok m => some ⟨.ok m, 1, 0⟩
    | .retryAfter n =>
      (safe_send rest).map (fun r => ⟨r.result, r.attempts + 1, r.slept + n + 1⟩)
    | .transient =>
      (safe_send rest).map (fun r => ⟨r.result, r.attempts + 1, r.slept + 3⟩)
    | .forbidden => some ⟨.error .forbidden, 1, 0⟩
    | .badRequest => some ⟨.error .badRequest, 1, 0⟩
    | .other =>
      (safe_send rest).map (fun r => ⟨r.result, r.attempts + 1, r.slept + 2⟩)

/-! ## TaskSupervisor: `safe_create_task` (src/main.py lines 79-89)

`safe_create_task` starts the coroutine as an asyncio task and attaches a done
callback that retrieves the task's result in `try ... except Exception:
logging.exception("Task crashed: %s", name)`.  The callback is embedded as a
pure state transformer: the process state carries the log and the names of the
sibling tasks, a finished loop's outcome is `Except Fault Unit`, and the
callback either leaves the state unchanged (normal return) or appends a log
entry.  The asyncio scheduler itself is outside the embedding; what is
verified is that the handler catches every fault, produces only a log entry,
and touches nothing else. -/

/-- A fault a loop terminated with (an `Exception`, carried as its message). -/
abbrev Fault := String

/-- Process state visible to the done callback: the log and the sibling
tasks still running. -/
structure ProcState where
  log : List String
  siblings : List String
  deriving DecidableEq, Repr

/-- The done callback of `safe_create_task` (src/main.py lines 82-87) applied
to a finished task's outcome. -/
def superviseDone (ps : ProcState) (name : String) (outcome : Except Fault Unit) :
    ProcState :=
  match outcome with
  | .ok _ => ps
  | .error _ => { ps with log := ps.log ++ ["Task crashed: " ++ name] }

/-! ## Alias generator: `_name_fragments_from_joined` and
`random_alias_from_joined` (src/main.py lines 418-479)

Every `random.choice(lst)` is modelled as `lst.getD (i % lst.length) default`
for an explicitly passed draw `i` (every element is reachable by some draw),
`random.randint(a, b)` as `a + d % (b - a + 1)`, and the `while frag2 ==
frag1` retry loop consumes an explicit list of successive draws, returning
`none` when the list is exhausted before a differing fragment is drawn (the
real loop spins until one is drawn, which happens with probability 1 exactly
when the fragment list is not constant). -/

/-- `random.choice` on a list of strings, driven by an explicit draw. -/
def listChoice (l : List Str) (i : Nat) : Str :=
  l.getD (i % l.length) []

/-- `random.choice` on a list of characters, driven by an explicit draw. -/
def charChoice (l : List Char) (i : Nat) : Char :=
  l.getD (i % l.length) '0'

/-- `random.randint(a, b)` (inclusive bounds), driven by an explicit draw. -/
def pyRandint (a b d : Nat) : Nat :=
  a + d % (b - a + 1)

def NL_CITY_CODES : List Str :=
  (["010", "020", "030", "040", "050", "070", "073", "076", "079", "071",
    "072", "074", "075", "078"] : List String).map String.toList

def SEPARATORS : List Str :=
  (["_", ".", "-"] : List String).map String.toList

/-- The `PREFIXES` constant of src/main.py line 422. -/
def ALIAS_PREFIXES : List Str :=
  (["x", "mr", "its", "real", "official", "the", "iam", "nl", "dm", "vip",
    "urban", "city", "only"] : List String).map String.toList

def EMOJIS : List Str :=
  (["🔥", "💎", "👻", "⚡", "🚀", "✅"] : List String).map String.toList

/-- The fallback fragment list of src/main.py line 442. -/
def DEFAULT_FRAGS : List Str :=
  (["nova", "sky", "dex", "luna", "vex", "rio", "mira", "zen"] :
    List String).map String.toList

/-- The style list of src/main.py lines 454-461. -/
def STYLES : List String :=
  ["prefix_frag_digits", "frag_code_digits", "frag_frag_digits",
   "prefix_frag_code", "prefix_frag_sep_frag_digits", "frag_digits_emoji"]

/-- The `if frag and frag not in frags: frags.append(frag)` step of
src/main.py lines 435-436. -/
def addFrag (n : Str) (start fragLen : Nat) (frags : List Str) : List Str :=
  let frag := (n.drop start).take fragLen
  if frag ≠ [] ∧ ¬ frag ∈ frags then frags ++ [frag] else frags

/-- Body of `_name_fragments_from_joined` (src/main.py lines 425-437),
threading the draw counter `ctr` through the loop: per name, normalise
(strip, lower, keep alphabetic characters) and, when at least 4 characters
remain, extract two random slices. -/
def name_fragments_aux (rng : Nat → Nat) :
    List Str → Nat → List Str → List Str
  | [], _, frags => frags
  | n :: rest, ctr, frags =>
    let n' := ((pyStrip n).map Char.toLower).filter Char.isAlpha
    if 4 ≤ n'.length then
      let s1 := pyRandint 0 (max 0 (n'.length - 3)) (rng ctr)
      let l1 := pyRandint 2 4 (rng (ctr + 1))
      let frags1 := addFrag n' s1 l1 frags
      let s2 := pyRandint 0 (max 0 (n'.length - 3)) (rng (ctr + 2))
      let l2 := pyRandint 2 4 (rng (ctr + 3))
      let frags2 := addFrag n' s2 l2 frags1
      name_fragments_aux rng rest (ctr + 4) frags2
    else
      name_fragments_aux rng rest ctr frags

/-- `_name_fragments_from_joined` (src/main.py lines 425-437). -/
def name_fragments (names : List Str) (rng : Nat → Nat) : List Str :=
  name_fragments_aux rng names 0 []

/-- All random draws consumed by one `random_alias_from_joined` call. -/
structure AliasRng where
  fragRng : Nat → Nat
  codeI : Nat
  sepI : Nat
  prefI : Nat
  frag1I : Nat
  frag2Draws : List Nat
  digLenD : Nat
  digRng : Nat → Nat
  emojiI : Nat
  styleI : Nat

/-- The fragment list actually used: the extracted fragments, or the default
eight-element list when extraction yields nothing (src/main.py lines
440-442). -/
def aliasFrags (names : List Str) (rng : AliasRng) : List Str :=
  let frags0 := name_fragments names rng.fragRng
  if frags0 = [] then DEFAULT_FRAGS else frags0

/-- The `while frag2 == frag1: frag2 = random.choice(frags)` loop
(src/main.py lines 448-450), consuming one explicit draw per iteration
(the first draw is the initial `random.choice`). -/
def pickFrag2 (frags : List Str) (frag1 : Str) : List Nat → Option Str
  | [] => none
  | i :: rest =>
    let f := listChoice frags i
    if f = frag1 then pickFrag2 frags frag1 rest else some f

/-- The digit block `"".join(random.choices(string.digits,
k=random.randint(2, 4)))` (src/main.py line 452). -/
def aliasDigits (rng : AliasRng) : Str :=
  (List.range (pyRandint 2 4 rng.digLenD)).map
    (fun i => charChoice "0123456789".toList (rng.digRng i))

/-- The final `base = base.strip(); if not base or base.isdigit(): base =
f"user{...}"` step (src/main.py lines 476-479): strip, then replace an empty
or all-digits result with the `user` fallback. -/
def finishBase (sep digits base : Str) : Str :=
  let base' := pyStrip base
  if base' = [] ∨ pyIsDigit base' then "user".toList ++ sep ++ digits else base'

/-- The style dispatch of src/main.py lines 454-479: assemble the alias from
the chosen fragments and decorations, then apply the final strip/fallback. -/
def aliasAssemble (frag1 frag2 : Str) (rng : AliasRng) : Str :=
  let code := listChoice NL_CITY_CODES rng.codeI
  let sep := listChoice SEPARATORS rng.sepI
  let pref := listChoice ALIAS_PREFIXES rng.prefI
  let digits := aliasDigits rng
  let style := STYLES.getD (rng.styleI % STYLES.length) ""
  let base :=
    if style = "prefix_frag_digits" then pref ++ sep ++ frag1 ++ digits
    else if style = "frag_code_digits" then frag1 ++ sep ++ code ++ sep ++ digits
    else if style = "frag_frag_digits" then frag1 ++ sep ++ frag2 ++ digits
    else if style = "prefix_frag_code" then pref ++ sep ++ frag1 ++ sep ++ code
    else if style = "frag_digits_emoji" then
      frag1 ++ digits ++ listChoice EMOJIS rng.emojiI
    else pref ++ sep ++ frag1 ++ sep ++ frag2 ++ sep ++ digits
  finishBase sep digits base

/-- `random_alias_from_joined` (src/main.py lines 439-479): `none` exactly
when the frag2 retry loop exhausts its scripted draws. -/
def random_alias_from_joined (names : List Str) (rng : AliasRng) : Option Str :=
  let frags := aliasFrags names rng
  let frag1 := listChoice frags rng.frag1I
  (pickFrag2 frags frag1 rng.frag2Draws).map
    (fun frag2 => aliasAssemble frag1 frag2 rng)

/-- A concrete draw record: first draws index 0 everywhere, the frag2 loop
draws index 1 on its first iteration. -/
def aliasRngSample : AliasRng :=
  ⟨fun _ => 0, 0, 0, 0, 0, [1], 0, fun _ => 0, 0, 0⟩

/-- Sample transport for witnesses: deleting succeeds except for id 2. -/
def delFailsOn2 : Int → Bool := fun m => m != 2

/-- Sample transport for witnesses: every delete succeeds. -/
def delAllOk : Int → Bool := fun _ => true

/-- Sample transport for witnesses: every delete fails. -/
def delNoneOk : Int → Bool := fun _ => false

/-! # Theorems -/

/-- C3: for every local instant, `current_cycle_id` yields the previous
calendar date when the local time-of-day is strictly before the 05:00
boundary and today's calendar date at or after it (the boundary instant
itself belongs to the new cycle); concretely, 04:59 local on 2024-03-10
yields 2024-03-09 and exactly 05:00 yields 2024-03-10. -/
theorem current_cycle_id_boundary (lt : LocalDT) :
    (lt.tod < RESET_AT_S → current_cycle_id lt = prevDate lt.date) ∧
    (RESET_AT_S ≤ lt.tod → current_cycle_id lt = lt.date) ∧
    current_cycle_id ⟨⟨2024, 3, 10⟩, 4 * 3600 + 59 * 60⟩ = ⟨2024, 3, 9⟩ ∧
    current_cycle_id ⟨⟨2024, 3, 10⟩, 5 * 3600⟩ = ⟨2024, 3, 10⟩ := by
  refine ⟨fun h => ?_, fun h => ?_, by decide, by decide⟩
  · simp only [current_cycle_id, if_pos h]
  · simp only [current_cycle_id, if_neg (Nat.not_lt.mpr h)]

/-- Witness for `current_cycle_id_boundary` at 04:59 and 05:00 local on
2024-03-10. -/
theorem current_cycle_id_boundary_witness :
    current_cycle_id ⟨⟨2024, 3, 10⟩, 17940⟩ = prevDate ⟨2024, 3, 10⟩ ∧
    current_cycle_id ⟨⟨2024, 3, 10⟩, 18000⟩ = Date.mk 2024 3 10 :=
  ⟨(current_cycle_id_boundary ⟨⟨2024, 3, 10⟩, 17940⟩).1 (by decide),
   (current_cycle_id_boundary ⟨⟨2024, 3, 10⟩, 18000⟩).2.1 (by decide)⟩

/-- C7: the done callback installed by `safe_create_task` maps a loop that
terminated with a fault to a normal state update that appends the fault log
entry (with the loop's name) and leaves the sibling tasks untouched; no
outcome of a supervised task changes the sibling set, so a fault never
escapes the supervision boundary. -/
theorem superviseDone_isolates_faults (ps : ProcState) (name : String) (e : Fault) :
    (superviseDone ps name (Except.error e)).log
      = ps.log ++ ["Task crashed: " ++ name] ∧
    (superviseDone ps name (Except.error e)).siblings = ps.siblings ∧
    ∀ outcome, (superviseDone ps name outcome).siblings = ps.siblings := by
  refine ⟨rfl, rfl, fun o => ?_⟩
  cases o <;> rfl

/-- C1 counterexample: `safe_send` has no process-wide cooldown.  A call whose
first transport outcome is rate-limited with retryAfter=30 sleeps 31 seconds
inside the same call and makes a second transport attempt (it is not
suppressed and does not abort), and a subsequent independent call makes a
transport attempt immediately (its attempt count is 1, never the 0 the claim
requires of a suppressed send). -/
theorem safe_send_no_cooldown_cex :
    safe_send [TgOutcome.retryAfter 30, TgOutcome.ok 1]
      = some ⟨Except.ok 1, 2, 31⟩ ∧
    safe_send [TgOutcome.ok 5] = some ⟨Except.ok 5, 1, 0⟩ ∧
    (safe_send [TgOutcome.ok 5]).map (fun r => r.attempts) ≠ some 0 := by
  exact ⟨rfl, rfl, by decide⟩

/-- C1 amended: `safe_send` maintains no cooldown between calls and has no
suppressed outcome — every call that completes makes at least one transport
attempt, and a rate-limited attempt with retryAfter=30 makes the same call
sleep 31 seconds and retry until a terminal outcome, while a later call is
attempted normally. -/
theorem safe_send_retry_behavior (outs : List TgOutcome) (r : SendRun)
    (h : safe_send outs = some r) :
    1 ≤ r.attempts ∧
    safe_send [TgOutcome.retryAfter 30, TgOutcome.ok 1]
      = some ⟨Except.ok 1, 2, 31⟩ := by
  refine ⟨?_, rfl⟩
  cases outs with
  | nil => simp [safe_send] at h
  | cons o rest =>
    cases o <;> simp only [safe_send, Option.map_eq_some'] at h
    · exact Option.some.inj h ▸ Nat.le_refl 1
    · obtain ⟨s, _, hs⟩ := h
      exact hs ▸ Nat.le_add_left 1 s.attempts
    · obtain ⟨s, _, hs⟩ := h
      exact hs ▸ Nat.le_add_left 1 s.attempts
    · exact Option.some.inj h ▸ Nat.le_refl 1
    · exact Option.some.inj h ▸ Nat.le_refl 1
    · obtain ⟨s, _, hs⟩ := h
      exact hs ▸ Nat.le_add_left 1 s.attempts

/-- Witness for `safe_send_retry_behavior` on a call that succeeds at the
first attempt. -/
theorem safe_send_retry_behavior_witness :
    1 ≤ (SendRun.mk (Except.ok 5) 1 0).attempts ∧
    safe_send [TgOutcome.retryAfter 30, TgOutcome.ok 1]
      = some ⟨Except.ok 1, 2, 31⟩ :=
  safe_send_retry_behavior [TgOutcome.ok 5] ⟨Except.ok 5, 1, 0⟩ rfl

/-- Helper: a key already present makes `db_mark_used` a no-op. -/
theorem db_mark_used_mem_noop (store : List UsedRow) (cid name : Str)
    (h : (cid, name) ∈ store) : db_mark_used store cid name = store := by
  unfold db_mark_used
  rw [if_pos]
  exact List.any_eq_true.mpr ⟨(cid, name), h, by simp⟩

/-- Helper: one `db_mark_used` call preserves "at most one row per key". -/
theorem usedCount_db_mark_used_le (store : List UsedRow) (cid name : Str)
    (h : usedCount store cid name ≤ 1) :
    usedCount (db_mark_used store cid name) cid name ≤ 1 := by
  unfold db_mark_used
  by_cases hc : store.any (fun r => r.1 = cid ∧ r.2 = name) = true
  · rw [if_pos hc]; exact h
  · rw [if_neg hc]
    unfold usedCount at *
    rw [List.countP_append]
    have h0 : store.countP (fun r => decide (r.1 = cid ∧ r.2 = name)) = 0 := by
      rw [List.countP_eq_zero]
      intro a ha hpa
      exact hc (List.any_eq_true.mpr ⟨a, ha, hpa⟩)
    rw [h0]
    simp [List.countP_cons]

/-- C2: iterating `db_mark_used` for the same (cycle, name) key any number of
times preserves the at-most-one-row invariant of the `used_names` table, and a
call made while the row already exists leaves the table unchanged (a silent
no-op, by the `ON CONFLICT DO NOTHING` on the composite primary key). -/
theorem db_mark_used_at_most_one (store : List UsedRow) (cid name : Str) (m : Nat)
    (h : usedCount store cid name ≤ 1) :
    usedCount (db_mark_used_iter store cid name m) cid name ≤ 1 ∧
    ((cid, name) ∈ store → db_mark_used store cid name = store) := by
  constructor
  · induction m generalizing store with
    | zero => exact h
    | succ m ih =>
      exact ih (db_mark_used store cid name) (usedCount_db_mark_used_le store cid name h)
  · exact db_mark_used_mem_noop store cid name

/-- Witness for `db_mark_used_at_most_one`: a store already holding the mark
for ("2024-03-10", "alice"), marked twice more. -/
theorem db_mark_used_at_most_one_witness :
    usedCount (db_mark_used_iter [("2024-03-10".toList, "alice".toList)]
        "2024-03-10".toList "alice".toList 2) "2024-03-10".toList "alice".toList ≤ 1 ∧
    db_mark_used [("2024-03-10".toList, "alice".toList)]
        "2024-03-10".toList "alice".toList
      = [("2024-03-10".toList, "alice".toList)] :=
  have h := db_mark_used_at_most_one [("2024-03-10".toList, "alice".toList)]
    "2024-03-10".toList "alice".toList 2 (by decide)
  ⟨h.1, h.2 (by decide)⟩

/-- C4 counterexample: with an empty registry and all three durable attempts
failing, `db_remember_joined_name "alice"` leaves the durable store empty yet
still appends "alice" to the in-memory list — the in-memory update is not
conditional on the durable insert succeeding. -/
theorem db_remember_memory_divergence_cex :
    (db_remember_joined_name ⟨[], []⟩ "alice".toList [false, false, false]).memory
      = ["alice".toList] ∧
    (db_remember_joined_name ⟨[], []⟩ "alice".toList [false, false, false]).store
      = [] := by
  exact ⟨by decide, by decide⟩

/-- Helper: the bounded retry loop leaves the durable store unchanged when
every attempt fails. -/
theorem tryInsertName_all_fail (fuel : Nat) (oks : List Bool) (store : List Str)
    (name : Str) (h : ∀ b ∈ oks, b = false) :
    tryInsertName fuel oks store name = store := by
  induction fuel generalizing oks with
  | zero => rfl
  | succ fuel ih =>
    cases oks with
    | nil => rfl
    | cons ok rest =>
      have hok : ok = false := h ok (List.mem_cons_self ok rest)
      unfold tryInsertName
      rw [hok]
      simp only [Bool.false_eq_true, if_false]
      exact ih rest (fun b hb => h b (List.mem_cons_of_mem ok hb))

/-- C4 amended: `db_remember_joined_name` appends the stripped, non-empty name
to the in-memory list whenever it is absent, regardless of whether any durable
attempt succeeded; in particular, when every bounded attempt fails the durable
store is unchanged while the in-memory list still gains the name, so memory
and store may diverge until the next full reload. -/
theorem db_remember_unconditional_memory (st : RegistryState) (raw : Str)
    (oks : List Bool) (hne : pyStrip raw ≠ []) :
    (db_remember_joined_name st raw oks).memory
      = (if pyStrip raw ∈ st.memory then st.memory else st.memory ++ [pyStrip raw]) ∧
    ((∀ b ∈ oks, b = false) →
      (db_remember_joined_name st raw oks).store = st.store) := by
  constructor
  · simp only [db_remember_joined_name, if_neg hne]
  · intro hfail
    simp only [db_remember_joined_name, if_neg hne]
    exact tryInsertName_all_fail 3 oks st.store (pyStrip raw) hfail

/-- Witness for `db_remember_unconditional_memory`: empty registry, name
"alice", all three durable attempts failing. -/
theorem db_remember_unconditional_memory_witness :
    (db_remember_joined_name ⟨[], []⟩ "alice".toList [false, false, false]).memory
      = (if pyStrip "alice".toList ∈ ([] : List Str) then ([] : List Str)
         else [] ++ [pyStrip "alice".toList]) ∧
    (db_remember_joined_name ⟨[], []⟩ "alice".toList [false, false, false]).store
      = [] :=
  have h := db_remember_unconditional_memory ⟨[], []⟩ "alice".toList
    [false, false, false] (by decide)
  ⟨h.1, h.2 (by decide)⟩

/-- Helper: for any offset function, the branching cycle computation equals a
floor division by 86400 shifted by the boundary. -/
theorem cycle_day_of_ts_eq_ediv (off : Int → Int) (t : Int) :
    cycle_day_of_ts off t = (t + off t - RESET_AT_S) / 86400 := by
  have hb : ((RESET_AT_S : Nat) : Int) = 18000 := by norm_num [RESET_AT_S]
  simp only [cycle_day_of_ts, hb]
  generalize t + off t = x
  split
  · omega
  · omega

/-- C8 counterexample: under the real daylight-saving-observing
Europe/Amsterdam offsets, the cycle identifier does not change exactly once
per 24-hour span.  From 2024-03-30 03:30 UTC (04:30 CET, cycle 2024-03-29) a
24-hour step lands on 2024-03-31 03:30 UTC (05:30 CEST, cycle 2024-03-31):
the identifier advances by two, because the two 05:00-local boundary
crossings around the spring-forward transition are only 23 absolute hours
apart.  Symmetrically, from 2024-10-26 03:30 UTC a 24-hour step across the
fall-back transition advances the identifier by zero. -/
theorem cycle_day_dst_cex :
    cycle_day_of_ts amsOffset (1711769400 + 86400)
      = cycle_day_of_ts amsOffset 1711769400 + 2 ∧
    cycle_day_of_ts amsOffset (1729913400 + 86400)
      = cycle_day_of_ts amsOffset 1729913400 := by
  exact ⟨by decide, by decide⟩

/-- C8 amended: with the boundary fixed and the timezone the
daylight-saving-observing Europe/Amsterdam offsets, the cycle identifier
computed by `current_cycle_id` (timestamp-level embedding `cycle_day_of_ts
amsOffset`) is monotone non-decreasing in absolute time, and changes across a
one-second step exactly when the new instant's local time-of-day equals the
05:00 boundary (the boundary instant belongs to the new cycle); a 24-hour
step advances it by exactly one whenever both endpoints carry the same UTC
offset — across a DST transition a 24-hour span instead contains two (spring
forward) or zero (fall back) boundary crossings. -/
theorem cycle_day_monotone_daily (t1 t2 t : Int) :
    (t1 ≤ t2 → cycle_day_of_ts amsOffset t1 ≤ cycle_day_of_ts amsOffset t2) ∧
    (cycle_day_of_ts amsOffset (t + 1) ≠ cycle_day_of_ts amsOffset t ↔
      localTod amsOffset (t + 1) = (RESET_AT_S : Int)) ∧
    (amsOffset (t + 86400) = amsOffset t →
      cycle_day_of_ts amsOffset (t + 86400) = cycle_day_of_ts amsOffset t + 1) := by
  have hb : ((RESET_AT_S : Nat) : Int) = 18000 := by norm_num [RESET_AT_S]
  refine ⟨?_, ?_, ?_⟩
  · intro h
    rw [cycle_day_of_ts_eq_ediv, cycle_day_of_ts_eq_ediv, hb]
    unfold amsOffset DST_START_2024 DST_END_2024
    split_ifs <;> omega
  · rw [cycle_day_of_ts_eq_ediv, cycle_day_of_ts_eq_ediv, hb]
    unfold localTod amsOffset DST_START_2024 DST_END_2024
    split_ifs <;> omega
  · intro hoff
    rw [cycle_day_of_ts_eq_ediv, cycle_day_of_ts_eq_ediv, hb, hoff]
    generalize amsOffset t = o
    omega

/-- Witness for `cycle_day_monotone_daily` at the concrete pair 0 ≤ 86400 (a
24-hour step with no DST transition, both endpoints CET). -/
theorem cycle_day_monotone_daily_witness :
    cycle_day_of_ts amsOffset 0 ≤ cycle_day_of_ts amsOffset 86400 ∧
    cycle_day_of_ts amsOffset (0 + 86400) = cycle_day_of_ts amsOffset 0 + 1 :=
  ⟨(cycle_day_monotone_daily 0 86400 0).1 (by decide),
   (cycle_day_monotone_daily 0 0 0).2.2 (by decide)⟩

/-- Helper: the failure-collecting loop of the sweep accumulates exactly the
identifiers whose delete failed, in order. -/
theorem sweep_kept_foldl (f : Int → Bool) (ids : List Int) (acc : List Int) :
    ids.foldl (fun acc mid => if f mid then acc else acc ++ [mid]) acc
      = acc ++ ids.filter (fun m => !f m) := by
  induction ids generalizing acc with
  | nil => simp
  | cons m rest ih =>
    cases hm : f m <;> simp [List.filter_cons, hm, ih]

/-- Helper: every row produced by the rewrite loop is either carried over from
the initial table or is a kept identifier paired with the sweep time. -/
theorem sweep_reinsert_mem (now : Int) (kept : List Int) (st0 : List MsgRow)
    (r : MsgRow)
    (h : r ∈ kept.foldl
      (fun st mid => if st.any (fun x => x.1 = mid) then st else st ++ [(mid, now)])
      st0) :
    r ∈ st0 ∨ ∃ m ∈ kept, r = (m, now) := by
  induction kept generalizing st0 with
  | nil => exact Or.inl h
  | cons m rest ih =>
    simp only [List.foldl_cons] at h
    rcases ih _ h with h0 | ⟨m', hm', hr⟩
    · by_cases hc : st0.any (fun x => x.1 = m) = true
      · rw [if_pos hc] at h0
        exact Or.inl h0
      · rw [if_neg hc] at h0
        rcases List.mem_append.mp h0 with h1 | h2
        · exact Or.inl h1
        · refine Or.inr ⟨m, List.mem_cons_self m rest, ?_⟩
          simpa using h2
    · exact Or.inr ⟨m', List.mem_cons_of_mem m hm', hr⟩

/-- Helper: starting from an empty table, rewriting a duplicate-free kept list
produces exactly those identifiers stamped with the sweep time. -/
theorem sweep_reinsert_eq (now : Int) (kept : List Int) (st0 : List MsgRow)
    (hnd : kept.Nodup) (hdisj : ∀ m ∈ kept, ∀ x ∈ st0, x.1 ≠ m) :
    kept.foldl
      (fun st mid => if st.any (fun x => x.1 = mid) then st else st ++ [(mid, now)])
      st0
      = st0 ++ kept.map (fun m => (m, now)) := by
  induction kept generalizing st0 with
  | nil => simp
  | cons m rest ih =>
    simp only [List.foldl_cons]
    have hc : ¬ st0.any (fun x => x.1 = m) = true := by
      intro hany
      obtain ⟨x, hx, hx1⟩ := List.any_eq_true.mp hany
      exact hdisj m (List.mem_cons_self m rest) x hx (by simpa using hx1)
    rw [if_neg hc]
    rw [ih (st0 ++ [(m, now)]) (List.Nodup.of_cons hnd) ?_]
    · simp
    · intro m' hm' x hx
      rcases List.mem_append.mp hx with h1 | h2
      · exact hdisj m' (List.mem_cons_of_mem m hm') x h1
      · have hxm : x = (m, now) := by simpa using h2
        rw [hxm]
        intro hmm
        have hmeq : m = m' := hmm
        exact (List.nodup_cons.mp hnd).1 (hmeq ▸ hm')

/-- Helper: closed form of one sweep when the fetched identifiers are
duplicate-free (guaranteed by the `message_id` primary key): the rewritten
table is exactly the failed identifiers stamped with the sweep time. -/
theorem cleanup_sweep_eq (store : List MsgRow) (f : Int → Bool) (now : Int)
    (hnd : (store.map (fun r => r.1)).Nodup) :
    cleanup_sweep store f now
      = ((store.map (fun r => r.1)).filter (fun m => !f m)).map
          (fun m => (m, now)) := by
  simp only [cleanup_sweep]
  rw [sweep_kept_foldl, List.nil_append]
  rw [sweep_reinsert_eq now _ [] (List.Nodup.filter _ hnd)
    (fun m _ x hx => absurd hx (List.not_mem_nil x))]
  rw [List.nil_append]

/-- C6: one sweep of `cleanup_verify_topic_loop` leaves the tracked set equal
to exactly the subset of fetched message identifiers whose delete failed
(successful deletes are forgotten), and a second sweep in which the delete
succeeds for everything still tracked leaves the tracked set empty. -/
theorem cleanup_sweep_keeps_failed (store : List MsgRow) (f g : Int → Bool)
    (now now2 : Int) (hnd : (store.map (fun r => r.1)).Nodup) :
    (cleanup_sweep store f now).map (fun r => r.1)
      = (store.map (fun r => r.1)).filter (fun m => !f m) ∧
    ((∀ m ∈ (cleanup_sweep store f now).map (fun r => r.1), g m = true) →
      cleanup_sweep (cleanup_sweep store f now) g now2 = []) := by
  have he := cleanup_sweep_eq store f now hnd
  constructor
  · rw [he, List.map_map]
    simp [Function.comp_def]
  · intro hall
    have hnil : ((cleanup_sweep store f now).map (fun r => r.1)).filter
        (fun m => !g m) = [] := by
      rw [List.filter_eq_nil_iff]
      intro a ha
      simp [hall a ha]
    generalize hX : cleanup_sweep store f now = s2 at hnil ⊢
    simp only [cleanup_sweep]
    rw [sweep_kept_foldl, List.nil_append, hnil]
    rfl

/-- Witness for `cleanup_sweep_keeps_failed`: table {1, 2, 3}, first sweep
fails only on id 2, second sweep succeeds on everything. -/
theorem cleanup_sweep_keeps_failed_witness :
    (cleanup_sweep [((1 : Int), (0 : Int)), (2, 0), (3, 0)] delFailsOn2 100).map
        (fun r => r.1)
      = (([((1 : Int), (0 : Int)), (2, 0), (3, 0)]).map (fun r => r.1)).filter
          (fun m => !delFailsOn2 m) ∧
    cleanup_sweep (cleanup_sweep [((1 : Int), (0 : Int)), (2, 0), (3, 0)]
        delFailsOn2 100) delAllOk 200 = [] :=
  have h := cleanup_sweep_keeps_failed [((1 : Int), (0 : Int)), (2, 0), (3, 0)]
    delFailsOn2 delAllOk 100 200 (by decide)
  ⟨h.1, h.2 (by decide)⟩

/-- C9: every row present after a sweep carries the sweep-time creation
timestamp (the store default `NOW()` of the timestamp-less re-insert), not its
original creation timestamp, and is a fetched identifier whose delete failed —
so the retention age of kept messages restarts at every sweep. -/
theorem cleanup_sweep_fresh_created_at (store : List MsgRow) (f : Int → Bool)
    (now : Int) (r : MsgRow) (hr : r ∈ cleanup_sweep store f now) :
    r.2 = now ∧ f r.1 = false ∧ r.1 ∈ store.map (fun x => x.1) := by
  simp only [cleanup_sweep] at hr
  rw [sweep_kept_foldl, List.nil_append] at hr
  rcases sweep_reinsert_mem now _ [] r hr with h0 | ⟨m, hm, hrm⟩
  · exact absurd h0 (List.not_mem_nil r)
  · have hmf := List.mem_filter.mp hm
    refine ⟨by rw [hrm], ?_, ?_⟩
    · rw [hrm]
      simpa using hmf.2
    · rw [hrm]
      exact hmf.1

/-- Witness for `cleanup_sweep_fresh_created_at`: a row created at time -500
whose delete fails is re-inserted by the sweep at time 100 with timestamp
100. -/
theorem cleanup_sweep_fresh_created_at_witness :
    ((2 : Int), (100 : Int)).2 = 100 ∧ delNoneOk ((2 : Int), (100 : Int)).1 = false ∧
    ((2 : Int), (100 : Int)).1 ∈ ([((2 : Int), (-500 : Int))]).map (fun x => x.1) :=
  cleanup_sweep_fresh_created_at [((2 : Int), (-500 : Int))] delNoneOk 100
    (2, 100) (by decide)

/-- Helper: every call to the tracker increments the prune counter by one. -/
theorem trackAll_counter (st : TrackState) (calls : List (Int × Int)) :
    (trackAll st calls).counter = st.counter + calls.length := by
  induction calls generalizing st with
  | nil => rfl
  | cons c rest ih =>
    have hstep : (db_track_bot_verify_message_id st c.1 c.2).counter
        = st.counter + 1 := by
      simp only [db_track_bot_verify_message_id]
      split <;> rfl
    simp only [trackAll, List.foldl_cons] at ih ⊢
    rw [ih, hstep, List.length_cons]
    omega

/-- Helper: membership is preserved backwards through the sorted insert. -/
theorem mem_insertDescByTime {r x : MsgRow} {l : List MsgRow}
    (h : x ∈ insertDescByTime r l) : x = r ∨ x ∈ l := by
  induction l with
  | nil => simpa [insertDescByTime] using h
  | cons y ys ih =>
    unfold insertDescByTime at h
    by_cases hc : y.2 ≤ r.2
    · rw [if_pos hc] at h
      exact List.mem_cons.mp h
    · rw [if_neg hc] at h
      rcases List.mem_cons.mp h with h1 | h2
      · exact Or.inr (h1 ▸ List.mem_cons_self y ys)
      · rcases ih h2 with h3 | h4
        · exact Or.inl h3
        · exact Or.inr (List.mem_cons_of_mem y h4)

/-- Helper: sorting by creation time does not add rows. -/
theorem mem_sortDescByTime {x : MsgRow} {l : List MsgRow}
    (h : x ∈ sortDescByTime l) : x ∈ l := by
  induction l with
  | nil => simp [sortDescByTime] at h
  | cons y ys ih =>
    unfold sortDescByTime at h
    simp only [List.foldr_cons] at h
    rcases mem_insertDescByTime h with h1 | h2
    · exact h1 ▸ List.mem_cons_self y ys
    · exact List.mem_cons_of_mem y (ih h2)

/-- Helper: a tracker call whose incremented counter is a multiple of
`BOT_MSG_PRUNE_EVERY` runs the prune, after which no row is older than the
retention window (relative to the call time) and the row count is at most the
cap. -/
theorem db_track_prune_step (st : TrackState) (mid now : Int)
    (hc : (st.counter + 1) % BOT_MSG_PRUNE_EVERY = 0) :
    (∀ r ∈ (db_track_bot_verify_message_id st mid now).store,
      now - RETENTION_S ≤ r.2) ∧
    (db_track_bot_verify_message_id st mid now).store.length
      ≤ BOT_MSG_MAX_ROWS := by
  simp only [db_track_bot_verify_message_id]
  rw [if_neg (by simpa using hc)]
  constructor
  · intro r hr
    have h1 := List.mem_of_mem_take hr
    have h2 := mem_sortDescByTime h1
    have h3 := (List.mem_filter.mp h2).2
    simp only [decide_eq_true_eq] at h3
    omega
  · calc ((sortDescByTime _).take BOT_MSG_MAX_ROWS).length
        = min BOT_MSG_MAX_ROWS (sortDescByTime _).length := List.length_take _ _
      _ ≤ BOT_MSG_MAX_ROWS := Nat.min_le_left _ _

/-- C5: starting from counter 0 and any initial table contents, after
`BOT_MSG_PRUNE_EVERY * k` successful tracker calls (k ≥ 1) the
`bot_verify_messages` table contains no row older than the retention window
(relative to the last call's time) and at most `BOT_MSG_MAX_ROWS` rows — the
final call's counter is an exact multiple of the prune period, so the prune
ran on it. -/
theorem db_track_retention_after_prune (s0 : List MsgRow)
    (init : List (Int × Int)) (lastMid lastNow : Int) (k : Nat) (_hk : 1 ≤ k)
    (hlen : (init ++ [(lastMid, lastNow)]).length = BOT_MSG_PRUNE_EVERY * k) :
    (∀ r ∈ (trackAll ⟨0, s0⟩ (init ++ [(lastMid, lastNow)])).store,
      lastNow - RETENTION_S ≤ r.2) ∧
    (trackAll ⟨0, s0⟩ (init ++ [(lastMid, lastNow)])).store.length
      ≤ BOT_MSG_MAX_ROWS := by
  have hsplit : trackAll ⟨0, s0⟩ (init ++ [(lastMid, lastNow)])
      = db_track_bot_verify_message_id (trackAll ⟨0, s0⟩ init) lastMid lastNow := by
    simp [trackAll, List.foldl_append]
  have hctr : (trackAll ⟨0, s0⟩ init).counter = init.length := by
    simpa using trackAll_counter ⟨0, s0⟩ init
  have hmod : ((trackAll ⟨0, s0⟩ init).counter + 1) % BOT_MSG_PRUNE_EVERY = 0 := by
    rw [hctr]
    have hlen' : init.length + 1 = BOT_MSG_PRUNE_EVERY * k := by
      simpa [List.length_append] using hlen
    rw [hlen']
    exact Nat.mul_mod_right _ _
  rw [hsplit]
  exact db_track_prune_step _ lastMid lastNow hmod

/-- Witness for `db_track_retention_after_prune`: 200 calls tracking the same
message id at time 0 (k = 1). -/
theorem db_track_retention_after_prune_witness :
    (trackAll ⟨0, []⟩
      (List.replicate 199 ((7 : Int), (0 : Int)) ++ [((7 : Int), (0 : Int))])).store.length
      ≤ BOT_MSG_MAX_ROWS :=
  (db_track_retention_after_prune [] (List.replicate 199 (7, 0)) 7 0 1
    (by decide)
    (by rw [List.length_append, List.length_replicate]; decide)).2

/-- Helper: a string starting with a non-digit character is non-empty and not
all-digits. -/
theorem cons_block_ok (c : Char) (l : Str) (hc : c.isDigit = false) :
    (c :: l) ≠ [] ∧ pyIsDigit (c :: l) = false := by
  refine ⟨List.cons_ne_nil c l, ?_⟩
  unfold pyIsDigit
  simp [List.all_cons, hc]

/-- Helper: the final strip/fallback step always yields a non-empty string
that is not composed solely of digits — when the stripped base is empty or
all-digits it is replaced by the `user` fallback, which starts with 'u'. -/
theorem finishBase_ok (sep digits base : Str) :
    finishBase sep digits base ≠ [] ∧
    pyIsDigit (finishBase sep digits base) = false := by
  simp only [finishBase]
  split
  · have husr : ("user".toList : Str) ++ sep ++ digits
        = 'u' :: ("ser".toList ++ sep ++ digits) := rfl
    rw [husr]
    exact cons_block_ok 'u' _ (by decide)
  · next h =>
    push_neg at h
    exact ⟨h.1, by simpa using h.2⟩

/-- Helper: the frag2 retry loop terminates as soon as its draw sequence
contains a draw selecting a fragment different from frag1. -/
theorem pickFrag2_some (frags : List Str) (frag1 : Str) (draws : List Nat)
    (h : ∃ i ∈ draws, listChoice frags i ≠ frag1) :
    (pickFrag2 frags frag1 draws).isSome = true := by
  induction draws with
  | nil =>
    obtain ⟨i, hi, _⟩ := h
    exact absurd hi (List.not_mem_nil i)
  | cons d rest ih =>
    unfold pickFrag2
    by_cases hd : listChoice frags d = frag1
    · rw [if_pos hd]
      apply ih
      obtain ⟨i, hi, hne⟩ := h
      rcases List.mem_cons.mp hi with h1 | h2
      · exact absurd (by rw [h1]; exact hd) hne
      · exact ⟨i, h2, hne⟩
    · rw [if_neg hd]
      rfl

/-- Helper: a fragment list with two distinct elements always contains a
fragment different from the chosen frag1, so the retry loop has an exit. -/
theorem exists_ne_of_two_distinct (frags : List Str) (frag1 : Str)
    (h : ∃ a ∈ frags, ∃ b ∈ frags, a ≠ b) :
    frags.any (fun f => f ≠ frag1) = true := by
  obtain ⟨a, ha, b, hb, hab⟩ := h
  rcases eq_or_ne a frag1 with h1 | h1
  · refine List.any_eq_true.mpr ⟨b, hb, ?_⟩
    have : b ≠ frag1 := fun hbf => hab (h1.trans hbf.symm)
    simpa using this
  · exact List.any_eq_true.mpr ⟨a, ha, by simpa using h1⟩

/-- C10: whenever the fragment list used by `random_alias_from_joined`
(extracted fragments, or the eight default fragments for an empty registry)
contains two distinct fragments, the frag2 retry loop has an exit, the
generator terminates for every draw sequence that eventually selects a
fragment different from frag1 (which is the only way the loop exits), and
every produced alias is a non-empty string that is not composed solely of
digits. -/
theorem random_alias_terminates_nonempty (names : List Str) (rng : AliasRng) :
    ((∃ a ∈ aliasFrags names rng, ∃ b ∈ aliasFrags names rng, a ≠ b) →
      (aliasFrags names rng).any
        (fun f => f ≠ listChoice (aliasFrags names rng) rng.frag1I) = true) ∧
    ((∃ i ∈ rng.frag2Draws,
        listChoice (aliasFrags names rng) i
          ≠ listChoice (aliasFrags names rng) rng.frag1I) →
      (random_alias_from_joined names rng).isSome = true) ∧
    (∀ base, random_alias_from_joined names rng = some base →
      base ≠ [] ∧ pyIsDigit base = false) := by
  refine ⟨exists_ne_of_two_distinct _ _, ?_, ?_⟩
  · intro h
    have hp := pickFrag2_some _ _ _ h
    simp only [random_alias_from_joined]
    cases hcase : pickFrag2 (aliasFrags names rng)
        (listChoice (aliasFrags names rng) rng.frag1I) rng.frag2Draws with
    | none => rw [hcase] at hp; simp at hp
    | some f2 => rfl
  · intro base hb
    simp only [random_alias_from_joined] at hb
    obtain ⟨f2, _, hbase⟩ := Option.map_eq_some'.mp hb
    rw [← hbase]
    simp only [aliasAssemble]
    exact finishBase_ok _ _ _

/-- Witness for `random_alias_terminates_nonempty`: empty registry (default
fragment list), draws from `aliasRngSample`, producing the alias
"x_nova00". -/
theorem random_alias_terminates_nonempty_witness :
    (aliasFrags [] aliasRngSample).any
      (fun f => f ≠ listChoice (aliasFrags [] aliasRngSample)
        aliasRngSample.frag1I) = true ∧
    (random_alias_from_joined [] aliasRngSample).isSome = true ∧
    (['x', '_', 'n', 'o', 'v', 'a', '0', '0'] : Str) ≠ [] ∧
    pyIsDigit ['x', '_', 'n', 'o', 'v', 'a', '0', '0'] = false :=
  have h := random_alias_terminates_nonempty [] aliasRngSample
  ⟨h.1 (by decide), h.2.1 (by decide), h.2.2 ['x', '_', 'n', 'o', 'v', 'a', '0', '0'] (by decide)⟩
